import Mathlib

/-!
Shallow embedding of the core of `backend/flaskr/__init__.py` of the
Trivia-Api repository: pagination (`paginate_questions`), the search
endpoint (`search_question`), the question listing endpoint
(`get_questions`) and the quiz endpoint (`play_quizzes`), together with
theorems settling the specification claims about them.

Conventions of the embedding:
- database rows are Lean structures; SQLAlchemy queries over them are
  `List.filter` over the collection snapshot handed to the request;
- the page number read from the query string is an explicit `Int`
  parameter (Flask parses it with `type=int`, so negative values reach
  the code);
- Python list slicing is modelled by `pySlice`, including its
  negative-index normalization and clipping;
- SQL `ILIKE` is modelled by `likeMatch` on lowercased character lists,
  including the `%` and `_` wildcards and the backslash escape;
- the random draws (`func.random()` row ordering and `random.randrange`)
  are modelled by explicit `Nat` parameters reduced modulo the pool size,
  so theorems quantify over every possible draw;
- each endpoint returns an outcome type whose constructors mirror the
  observable HTTP results: a success payload, `notFound` for a 404
  response, `unprocessable` for a 422 response, and `serverError` for an
  unhandled Python exception that Flask converts into the generic 500
  response.
-/

namespace Trivia

/-- A row of the `questions` table. Field names follow the model used by
the source (`models.py`, not under `src/`): the prompt column is called
`question`. Ids and category ids are integers. -/
structure Question where
  id : Int
  question : String
  answer : String
  category : Int
  difficulty : Int
deriving DecidableEq

/-- Modelled from the spec: `Question.format` lives in `models.py`, which
is not part of `src/`. Per the data model section of the spec the
formatted payload carries exactly the fields of the record (id, question
text, answer, category, difficulty), so formatting is the identity on
this record type. -/
def Question.format (q : Question) : Question := q

/-- `QUESTIONS_PER_SHELF = 10`, the fixed page size. -/
def QUESTIONS_PER_SHELF : Int := 10

/-- Normalization of one Python slice endpoint for a list of length `n`:
a negative index counts from the end (and clips at 0), a non-negative
index clips at `n`. -/
def pyIndex (n : Nat) (i : Int) : Nat :=
  if i < 0 then (i + n).toNat else min i.toNat n

/-- Python list slicing `l[a:b]` with step 1: both endpoints are
normalized with `pyIndex` and the elements with positions in
`[pyIndex a, pyIndex b)` are returned. Never fails. -/
def pySlice {α : Type} (l : List α) (a b : Int) : List α :=
  (l.take (pyIndex l.length b)).drop (pyIndex l.length a)

/-- `paginate_questions(request, selection)`: reads the page number
(default 1, parsed as an `int`, here an explicit parameter), computes
`start = (page - 1) * QUESTIONS_PER_SHELF`, `end = start +
QUESTIONS_PER_SHELF`, formats every question of the selection and
returns the Python slice `questions[start:end]`. -/
def paginate_questions (page : Int) (selection : List Question) : List Question :=
  let start := (page - 1) * QUESTIONS_PER_SHELF
  let stop := start + QUESTIONS_PER_SHELF
  let questions := selection.map Question.format
  pySlice questions start stop

/-- Observable outcome of the `GET /questions` endpoint: the success
payload (current page and total count), a 404 response, or a 422
response. -/
inductive ListOutcome where
  | ok (questions : List Question) (total : Nat)
  | notFound
  | unprocessable
deriving DecidableEq

/-- The body of the `try` block of `get_questions`: paginate the full
selection and `abort(404)` (an exception, here `Except.error 404`) when
the resulting page is empty, otherwise build the success payload. -/
def get_questions_try (page : Int) (qs : List Question) :
    Except Nat (List Question × Nat) :=
  let current_questions := paginate_questions page qs
  if current_questions.length = 0 then
    Except.error 404
  else
    Except.ok (current_questions, qs.length)

/-- `GET /questions`: the whole handler. The bare `except:` of the source
catches every exception raised inside the `try` block - including the
`HTTPException` raised by the inner `abort(404)` - and answers with
`abort(422)`. -/
def get_questions (page : Int) (qs : List Question) : ListOutcome :=
  match get_questions_try page qs with
  | Except.ok (current, total) => ListOutcome.ok current total
  | Except.error _ => ListOutcome.unprocessable

/-- Helper for the `%` wildcard of SQL `LIKE`: `anyTail f t` is true when
`f` accepts some suffix of `t` (the suffix left after `%` consumed an
arbitrary prefix). -/
def anyTail (f : List Char → Bool) : List Char → Bool
  | [] => f []
  | c :: ts => f (c :: ts) || anyTail f ts

/-- One element of a parsed SQL `LIKE` pattern: the `%` wildcard (any
sequence), the `_` wildcard (exactly one character), or a literal
character. -/
inductive LikeTok where
  | pct
  | uscore
  | lit (c : Char)
deriving DecidableEq

/-- Tokenizer for SQL `LIKE` patterns. The `Bool` state records that the
previous character was an unconsumed escape (the backslash, the default
`ESCAPE` character of PostgreSQL): the character after it is taken
literally, and a pattern ending in a lone escape is invalid (`none` -
PostgreSQL raises an error for it). -/
def parseLikeAux : Bool → List Char → Option (List LikeTok)
  | false, [] => some []
  | true, [] => none
  | true, c :: ps => (parseLikeAux false ps).map (fun ts => LikeTok.lit c :: ts)
  | false, c :: ps =>
    if c = '\\' then parseLikeAux true ps
    else if c = '%' then (parseLikeAux false ps).map (fun ts => LikeTok.pct :: ts)
    else if c = '_' then (parseLikeAux false ps).map (fun ts => LikeTok.uscore :: ts)
    else (parseLikeAux false ps).map (fun ts => LikeTok.lit c :: ts)

/-- Parse a SQL `LIKE` pattern, starting outside an escape. -/
def parseLike (p : List Char) : Option (List LikeTok) := parseLikeAux false p

/-- Matching a tokenized `LIKE` pattern against a text: `%` consumes any
prefix (`anyTail` over the rest of the pattern), `_` consumes exactly
one character, a literal consumes exactly itself. -/
def likeMatchTok : List LikeTok → List Char → Bool
  | [], t => t.isEmpty
  | LikeTok.pct :: ps, t => anyTail (fun s => likeMatchTok ps s) t
  | LikeTok.uscore :: _, [] => false
  | LikeTok.uscore :: ps, _ :: ts => likeMatchTok ps ts
  | LikeTok.lit _ :: _, [] => false
  | LikeTok.lit p :: ps, c :: ts => (p == c) && likeMatchTok ps ts

/-- SQL `ILIKE`: case-insensitive `LIKE`, modelled by lowercasing both
the pattern and the text before tokenizing and matching. An invalid
pattern (lone trailing escape) raises an error in PostgreSQL; it cannot
arise from the `'%{}%'` patterns the endpoint builds, and the model
returns `false` for it. -/
def ilike (pattern text : String) : Bool :=
  match parseLike (pattern.data.map Char.toLower) with
  | some toks => likeMatchTok toks (text.data.map Char.toLower)
  | none => false

/-- The search selection of `search_question`:
`Question.query.order_by(Question.id).filter(Question.question.ilike('%{}%'.format(search)))`.
The input list is the collection in its deterministic id order; the
filter keeps the questions whose text matches the ILIKE pattern built by
wrapping the raw term in `%`. -/
def search_selection (search : String) (qs : List Question) : List Question :=
  qs.filter (fun q => ilike ("%" ++ search ++ "%") q.question)

/-- Observable outcome of the `POST /questions/search` endpoint: the
success payload, a 422 response, or the generic 500 response Flask
produces when the view function returns no response object. -/
inductive SearchOutcome where
  | ok (questions : List Question) (total : Nat)
  | unprocessable
  | serverError
deriving DecidableEq

/-- `POST /questions/search`. The body is `none` when `request.get_json()`
fails (no or invalid JSON: the exception is caught by the `except:` and
answered with `abort(422)`); otherwise it carries the optional
`searchTerm` value. The Python guard `if search:` is false both for an
absent term and for the empty string; in that case no branch returns, the
view function yields `None` and Flask raises the generic 500 server
error. -/
def search_question (body : Option (Option String)) (page : Int)
    (qs : List Question) : SearchOutcome :=
  match body with
  | none => SearchOutcome.unprocessable
  | some search =>
    match search with
    | none => SearchOutcome.serverError
    | some s =>
      if s = "" then SearchOutcome.serverError
      else
        SearchOutcome.ok (paginate_questions page (search_selection s qs)) qs.length

/-- Parsed shape of the body of a `POST /quizzes` request:
`noData` when `request.data` is empty, `invalidJson` when `json.loads`
raises, `missingFields` when the parsed object lacks
`quiz_category` / `quiz_category.id` / `previous_questions`, and
`params` when all required fields are present. -/
inductive QuizBody where
  | noData
  | invalidJson
  | missingFields
  | params (categoryId : Int) (previous : List Int)

/-- Observable outcome of the `POST /quizzes` endpoint: the success
payload with the served question, a 404 response, a 422 response, or the
generic 500 response produced by an unhandled Python exception (the
handler has no `try` block). -/
inductive QuizOutcome where
  | ok (q : Question)
  | notFound
  | unprocessable
  | serverError
deriving DecidableEq

/-- The eligible pool of `play_quizzes`:
`Question.query.filter_by(category=...).filter(Question.id.notin_(previous_questions)).all()` -
the questions of the requested category whose id is not among the
previously served ids. -/
def questions_query (categoryId : Int) (previous : List Int)
    (qs : List Question) : List Question :=
  (qs.filter (fun q => q.category == categoryId)).filter
    (fun q => !(previous.contains q.id))

/-- `POST /quizzes`. `rAll` drives `Question.query.order_by(func.random()).first()`
(the fallback question, drawn from the whole collection before any
check); `rPool` drives `random.randrange(0, length_of_available_question)`.
With an empty body the handler ends on `abort(422)`; with a body that
lacks the required fields it ends on `abort(404)`; with invalid JSON,
`json.loads` raises and - there being no `try` block - Flask answers
with the generic 500. When the eligible pool is non-empty a random
element of it is formatted and returned; otherwise the prefetched
fallback question is formatted - and when the whole collection is empty
that fallback is `None`, so `current_question.format()` raises an
`AttributeError` that surfaces as the generic 500 response. -/
def play_quizzes (body : QuizBody) (qs : List Question) (rAll rPool : Nat) :
    QuizOutcome :=
  let current_question : Option Question := qs.get? (rAll % qs.length)
  match body with
  | QuizBody.noData => QuizOutcome.unprocessable
  | QuizBody.invalidJson => QuizOutcome.serverError
  | QuizBody.missingFields => QuizOutcome.notFound
  | QuizBody.params categoryId previous =>
    let pool := questions_query categoryId previous qs
    let length_of_available_question := pool.length
    if h : 0 < length_of_available_question then
      QuizOutcome.ok (Question.format (pool.get ⟨rPool % pool.length, Nat.mod_lt rPool h⟩))
    else
      match current_question with
      | some q => QuizOutcome.ok (Question.format q)
      | none => QuizOutcome.serverError

/-- Formatting is the identity, so it maps over a list invisibly. -/
lemma map_format (l : List Question) : l.map Question.format = l := by
  induction l with
  | nil => rfl
  | cons a l ih => simp [Question.format, ih]

/-- Membership in the eligible pool gives membership in the collection,
the requested category and exclusion of the previously served ids. -/
lemma questions_query_mem {categoryId : Int} {previous : List Int}
    {qs : List Question} {q : Question}
    (hq : q ∈ questions_query categoryId previous qs) :
    q ∈ qs ∧ q.category = categoryId ∧ q.id ∉ previous := by
  unfold questions_query at hq
  simp only [List.mem_filter, Bool.not_eq_true', beq_iff_eq, List.contains,
    List.elem_eq_mem, decide_eq_false_iff_not] at hq
  exact ⟨hq.1.1, hq.1.2, hq.2⟩

/-- Concrete one-question collection used by the quiz witnesses. -/
def qDemo : Question := ⟨1, "q", "a", 1, 1⟩

/-- C1: when the eligible pool (category match minus excluded ids) is
non-empty, the quiz selector returns a question of that pool, so its id
is not in the excluded set and its category is the requested one -
whatever the two random draws are. -/
theorem quiz_exclusion (categoryId : Int) (previous : List Int) (qs : List Question)
    (rAll rPool : Nat) (h : 0 < (questions_query categoryId previous qs).length) :
    ∃ q, play_quizzes (QuizBody.params categoryId previous) qs rAll rPool =
        QuizOutcome.ok q ∧ q.category = categoryId ∧ q.id ∉ previous := by
  simp only [play_quizzes, Question.format]
  rw [dif_pos h]
  refine ⟨_, rfl, ?_⟩
  have hq := questions_query_mem
    (List.get_mem (questions_query categoryId previous qs)
      (rPool % (questions_query categoryId previous qs).length) (Nat.mod_lt rPool h))
  exact ⟨hq.2.1, hq.2.2⟩

/-- Witness for C1 at a concrete input: one question of category 1 and
an empty exclusion set. -/
theorem quiz_exclusion_witness :
    ∃ q, play_quizzes (QuizBody.params 1 []) [qDemo] 0 0 = QuizOutcome.ok q ∧
      q.category = 1 ∧ q.id ∉ ([] : List Int) :=
  quiz_exclusion 1 [] [qDemo] 0 0 (by decide)

/-- C2: when the eligible pool is empty but the collection is not, the
quiz selector still answers with a question, drawn from the whole
unfiltered collection. -/
theorem quiz_fallback (categoryId : Int) (previous : List Int) (qs : List Question)
    (rAll rPool : Nat) (hpool : questions_query categoryId previous qs = [])
    (hne : qs ≠ []) :
    ∃ q, play_quizzes (QuizBody.params categoryId previous) qs rAll rPool =
        QuizOutcome.ok q ∧ q ∈ qs := by
  have hlen : 0 < qs.length := List.length_pos.mpr hne
  have hr : rAll % qs.length < qs.length := Nat.mod_lt _ hlen
  simp only [play_quizzes, Question.format, hpool]
  rw [dif_neg (by simp), List.get?_eq_get hr]
  exact ⟨_, rfl, List.get_mem _ _ _⟩

/-- Witness for C2 at a concrete input: the only question of the
category is excluded, so the pool is empty, and it is re-served by the
fallback. -/
theorem quiz_fallback_witness :
    ∃ q, play_quizzes (QuizBody.params 1 [1]) [qDemo] 0 0 = QuizOutcome.ok q ∧
      q ∈ [qDemo] :=
  quiz_fallback 1 [1] [qDemo] 0 0 (by decide) (by decide)

/-- C3: on an empty question collection a well-formed quiz request does
not produce a distinct exhaustion signal: the prefetched fallback row is
`None`, `current_question.format()` raises, and the response is the
generic 500 server error. -/
theorem quiz_empty_collection_server_error (categoryId : Int) (previous : List Int)
    (rAll rPool : Nat) :
    play_quizzes (QuizBody.params categoryId previous) [] rAll rPool =
      QuizOutcome.serverError := rfl

/-- C8: a present body missing the required quiz fields is rejected with
the 404 client-error signal, an entirely absent body with the 422
signal; the two outcomes differ, and neither depends on the collection
or on the random draws. -/
theorem quiz_validation_distinct (qs : List Question) (rAll rPool : Nat) :
    play_quizzes QuizBody.missingFields qs rAll rPool = QuizOutcome.notFound ∧
    play_quizzes QuizBody.noData qs rAll rPool = QuizOutcome.unprocessable ∧
    QuizOutcome.notFound ≠ QuizOutcome.unprocessable :=
  ⟨rfl, rfl, by decide⟩

/-- Concrete one-question collection used by the listing theorem. -/
def qSolo : Question := ⟨7, "solo", "a", 2, 3⟩

/-- C7: an empty page slice - empty collection on page 1 as well as a
page number beyond the data - is answered with 422 Unprocessable, not
404: the `abort(404)` inside the `try` block is caught by the bare
`except:` and converted to `abort(422)`. -/
theorem get_questions_empty_slice_unprocessable :
    get_questions 1 ([] : List Question) = ListOutcome.unprocessable ∧
    get_questions 2 [qSolo] = ListOutcome.unprocessable := by
  refine ⟨by decide, by decide⟩

/-- Concrete question used by the search counterexamples. -/
def qF : Question := ⟨5, "What is the capital of France?", "Paris", 3, 2⟩

/-- C6 counterexample: a search request with an empty term does signal a
server error - the view function returns no response and Flask raises
the generic 500 - contradicting the claimed empty-body response. -/
theorem search_empty_term_counterexample :
    search_question (some (some "")) 1 [qF] = SearchOutcome.serverError := rfl

/-- C6 amended: for an empty or absent search term no search is
performed and the endpoint signals the generic 500 server error (the
view function returns no response); it does not return all questions
and does not produce a normal response. -/
theorem search_empty_term_server_error (page : Int) (qs : List Question) :
    search_question (some none) page qs = SearchOutcome.serverError ∧
    search_question (some (some "")) page qs = SearchOutcome.serverError :=
  ⟨rfl, rfl⟩

/-- Clipped slicing in `Nat` form: taking up to `min (m + j) (length)`
elements and then dropping up to `min m (length)` of them is dropping
`m` and taking `j`. -/
lemma take_min_drop_min {α : Type} (l : List α) (m j : Nat) :
    (l.take (min (m + j) l.length)).drop (min m l.length) = (l.drop m).take j := by
  rcases Nat.le_total l.length m with h | h
  · rw [Nat.min_eq_right (show l.length ≤ m + j by omega), Nat.min_eq_right h,
      List.take_length, List.drop_length, List.drop_eq_nil_of_le h, List.take_nil]
  · rw [Nat.min_eq_left h]
    rcases Nat.le_total l.length (m + j) with h2 | h2
    · rw [Nat.min_eq_right h2, List.take_length,
        List.take_of_length_le (by rw [List.length_drop]; omega)]
    · rw [Nat.min_eq_left h2]
      exact (List.take_drop m j l).symm

/-- A Python slice with non-negative endpoints `a` and `a + k` is drop
and take. -/
lemma pySlice_nonneg {α : Type} (l : List α) (a k : Int) (ha : 0 ≤ a) (hk : 0 ≤ k) :
    pySlice l a (a + k) = (l.drop a.toNat).take k.toNat := by
  unfold pySlice pyIndex
  rw [if_neg (by omega), if_neg (by omega)]
  have hak : (a + k).toNat = a.toNat + k.toNat := by omega
  rw [hak, take_min_drop_min]

/-- C4: for every page number at least 1 and any collection, pagination
returns the clipped slice starting at position `(p - 1) * 10`, its
length is `min 10 (length - (p - 1) * 10)` (truncated subtraction, so 0
beyond the last page), and it is total - never an error. -/
theorem paginate_page_bound (p : Int) (qs : List Question) (hp : 1 ≤ p) :
    paginate_questions p qs = (qs.drop ((p - 1) * 10).toNat).take 10 ∧
    (paginate_questions p qs).length = min 10 (qs.length - ((p - 1) * 10).toNat) := by
  have ha : 0 ≤ (p - 1) * (10 : Int) := by
    have h1 : 0 ≤ p - 1 := by omega
    exact mul_nonneg h1 (by norm_num)
  have heq : paginate_questions p qs = (qs.drop ((p - 1) * 10).toNat).take 10 := by
    unfold paginate_questions
    show pySlice (qs.map Question.format) ((p - 1) * 10) ((p - 1) * 10 + 10) = _
    rw [map_format, pySlice_nonneg qs ((p - 1) * 10) 10 ha (by norm_num),
      show Int.toNat 10 = 10 from rfl]
  refine ⟨heq, ?_⟩
  rw [heq]
  simp only [List.length_take, List.length_drop]

/-- Concrete collection of twelve questions (the pagination scenario of
the spec). -/
def q12 : List Question :=
  [⟨1, "q1", "a", 1, 1⟩, ⟨2, "q2", "a", 1, 1⟩, ⟨3, "q3", "a", 1, 1⟩,
   ⟨4, "q4", "a", 1, 1⟩, ⟨5, "q5", "a", 1, 1⟩, ⟨6, "q6", "a", 1, 1⟩,
   ⟨7, "q7", "a", 1, 1⟩, ⟨8, "q8", "a", 1, 1⟩, ⟨9, "q9", "a", 1, 1⟩,
   ⟨10, "q10", "a", 1, 1⟩, ⟨11, "q11", "a", 1, 1⟩, ⟨12, "q12", "a", 1, 1⟩]

/-- Witness for C4: twelve questions, page 2 - the slice from position
10 with the two remaining questions. -/
theorem paginate_page_bound_witness :
    (1 : Int) ≤ 2 ∧
    (paginate_questions 2 q12 = (q12.drop (((2 : Int) - 1) * 10).toNat).take 10 ∧
     (paginate_questions 2 q12).length =
       min 10 (q12.length - (((2 : Int) - 1) * 10).toNat)) :=
  ⟨by decide, paginate_page_bound 2 q12 (by decide)⟩

/-- C10: the page-number precondition is not enforced. Page 0 always
yields the empty page; a negative page is resolved by the Python
negative-index slice rules - page -1 slices `items[-20:-10]`, positions
counted from the end of the collection - so any collection of more than
ten items yields a non-empty page there; and the function is total, it
never fails. -/
theorem paginate_no_page_precondition :
    (∀ qs : List Question, paginate_questions 0 qs = []) ∧
    (∀ qs : List Question,
      paginate_questions (-1) qs = (qs.take (qs.length - 10)).drop (qs.length - 20)) ∧
    (∃ qs : List Question, 10 < qs.length ∧ paginate_questions (-1) qs ≠ []) := by
  refine ⟨?_, ?_, q12, by decide, by decide⟩
  · intro qs
    have h1 : ((0 : Int) - 1) * QUESTIONS_PER_SHELF + QUESTIONS_PER_SHELF = 0 := by
      norm_num [QUESTIONS_PER_SHELF]
    simp [paginate_questions, pySlice, h1, pyIndex]
  · intro qs
    have e1 : ((-1 : Int) - 1) * QUESTIONS_PER_SHELF = -20 := by
      norm_num [QUESTIONS_PER_SHELF]
    have hlo : ((-20 : Int) + (qs.length : Int)).toNat = qs.length - 20 := by omega
    have hhi : ((-20 : Int) + QUESTIONS_PER_SHELF + (qs.length : Int)).toNat =
        qs.length - 10 := by
      show ((-20 : Int) + 10 + (qs.length : Int)).toNat = qs.length - 10
      omega
    unfold paginate_questions
    show pySlice (qs.map Question.format) (((-1 : Int) - 1) * QUESTIONS_PER_SHELF)
      (((-1 : Int) - 1) * QUESTIONS_PER_SHELF + QUESTIONS_PER_SHELF) = _
    rw [map_format, e1]
    unfold pySlice pyIndex
    rw [if_pos (by norm_num), if_pos (by norm_num [QUESTIONS_PER_SHELF]), hlo, hhi]

/-- `anyTail f` accepts a text exactly when `f` accepts some suffix. -/
lemma anyTail_eq_true (f : List Char → Bool) (t : List Char) :
    anyTail f t = true ↔ ∃ t1 t2, t = t1 ++ t2 ∧ f t2 = true := by
  induction t with
  | nil =>
    constructor
    · intro h
      exact ⟨[], [], rfl, h⟩
    · rintro ⟨t1, t2, heq, hf⟩
      obtain ⟨rfl, rfl⟩ := List.append_eq_nil.mp heq.symm
      exact hf
  | cons c ts ih =>
    constructor
    · intro h
      rcases Bool.or_eq_true_iff.mp h with h1 | h2
      · exact ⟨[], c :: ts, rfl, h1⟩
      · obtain ⟨t1, t2, heq, hf⟩ := ih.mp h2
        exact ⟨c :: t1, t2, by rw [heq]; rfl, hf⟩
    · rintro ⟨t1, t2, heq, hf⟩
      show (f (c :: ts) || anyTail f ts) = true
      cases t1 with
      | nil =>
        simp only [List.nil_append] at heq
        exact Bool.or_eq_true_iff.mpr (Or.inl (heq ▸ hf))
      | cons a t1 =>
        simp only [List.cons_append, List.cons.injEq] at heq
        exact Bool.or_eq_true_iff.mpr
          (Or.inr (ih.mpr ⟨t1, t2, heq.2, hf⟩))

/-- A block of literal pattern tokens must appear verbatim at the head
of the text, after which the rest of the pattern takes over. -/
lemma likeMatchTok_lit_append (ps : List LikeTok) :
    ∀ (l : List Char) (t : List Char),
      (likeMatchTok (l.map LikeTok.lit ++ ps) t = true ↔
        ∃ t2, t = l ++ t2 ∧ likeMatchTok ps t2 = true)
  | [], t => by simp
  | a :: l, t => by
    cases t with
    | nil =>
      simp only [List.map_cons, List.cons_append, likeMatchTok]
      simp
    | cons c ts =>
      simp only [List.map_cons, List.cons_append, likeMatchTok,
        Bool.and_eq_true_iff, beq_iff_eq]
      constructor
      · rintro ⟨rfl, hrec⟩
        obtain ⟨t2, heq, hm⟩ := (likeMatchTok_lit_append ps l ts).mp hrec
        exact ⟨t2, by rw [heq], hm⟩
      · rintro ⟨t2, heq, hm⟩
        injection heq with h1 h2
        exact ⟨h1.symm, (likeMatchTok_lit_append ps l ts).mpr ⟨t2, h2, hm⟩⟩

/-- The pattern consisting of the single `%` token matches every text. -/
lemma likeMatchTok_pct_single (t : List Char) :
    likeMatchTok [LikeTok.pct] t = true := by
  show anyTail (fun s => likeMatchTok [] s) t = true
  exact (anyTail_eq_true _ t).mpr ⟨t, [], by simp, rfl⟩

/-- The tokenized pattern that wraps a block of literal tokens in two
`%` wildcards accepts exactly the texts containing that block as a
factor. -/
lemma likeMatchTok_substring (lit : List Char) (t : List Char) :
    likeMatchTok (LikeTok.pct :: (lit.map LikeTok.lit ++ [LikeTok.pct])) t = true ↔
      ∃ l r, t = l ++ lit ++ r := by
  show anyTail (fun s => likeMatchTok (lit.map LikeTok.lit ++ [LikeTok.pct]) s) t
      = true ↔ _
  constructor
  · intro h
    obtain ⟨t1, t2, heq, hf⟩ := (anyTail_eq_true _ t).mp h
    obtain ⟨t3, heq2, _⟩ := (likeMatchTok_lit_append [LikeTok.pct] lit t2).mp hf
    exact ⟨t1, t3, by rw [heq, heq2, List.append_assoc]⟩
  · rintro ⟨l, r, rfl⟩
    refine (anyTail_eq_true _ _).mpr ⟨l, lit ++ r, by rw [List.append_assoc], ?_⟩
    exact (likeMatchTok_lit_append [LikeTok.pct] lit _).mpr
      ⟨r, rfl, likeMatchTok_pct_single r⟩

/-- Tokenizing a pattern that starts with `%` prepends the `%` token. -/
lemma parseLike_pct (ps : List Char) :
    parseLike ('%' :: ps) = (parseLike ps).map (fun ts => LikeTok.pct :: ts) := by
  show parseLikeAux false ('%' :: ps) = _
  simp [parseLikeAux, parseLike]

/-- Tokenizing a pattern that starts with a plain character prepends the
corresponding literal token. -/
lemma parseLike_lit_cons {a : Char} (hp : a ≠ '%') (hu : a ≠ '_') (hb : a ≠ '\\')
    (ps : List Char) :
    parseLike (a :: ps) = (parseLike ps).map (fun ts => LikeTok.lit a :: ts) := by
  show parseLikeAux false (a :: ps) = _
  simp only [parseLikeAux]
  rw [if_neg hb, if_neg hp, if_neg hu]
  rfl

/-- Tokenizing a block of plain characters yields the corresponding
block of literal tokens. -/
lemma parseLike_lit_append :
    ∀ l : List Char, (∀ c ∈ l, c ≠ '%' ∧ c ≠ '_' ∧ c ≠ '\\') → ∀ ps : List Char,
      parseLike (l ++ ps) = (parseLike ps).map (fun ts => l.map LikeTok.lit ++ ts)
  | [], _, ps => by simp
  | a :: l, hl, ps => by
    have ha := hl a (List.mem_cons_self a l)
    have hl2 : ∀ c ∈ l, c ≠ '%' ∧ c ≠ '_' ∧ c ≠ '\\' :=
      fun c hc => hl c (List.mem_cons_of_mem a hc)
    rw [List.cons_append, parseLike_lit_cons ha.1 ha.2.1 ha.2.2,
      parseLike_lit_append l hl2 ps]
    cases parseLike ps <;> simp

/-- Tokenization of the full `%term%` pattern when the term contains no
wildcard and no escape character. -/
lemma parseLike_pattern (s : List Char)
    (hs : ∀ c ∈ s, c ≠ '%' ∧ c ≠ '_' ∧ c ≠ '\\') :
    parseLike ('%' :: (s ++ ['%'])) =
      some (LikeTok.pct :: (s.map LikeTok.lit ++ [LikeTok.pct])) := by
  rw [parseLike_pct, parseLike_lit_append s hs ['%']]
  rfl

/-- The codepoint of a `Char` built from a small `Nat` is that `Nat`. -/
lemma char_toNat_ofNat_of_lt (n : Nat) (h : n < 55296) : (Char.ofNat n).toNat = n := by
  unfold Char.ofNat
  rw [dif_pos (Or.inl h)]
  rfl

/-- Lowercasing never produces a LIKE wildcard or the escape character
from a character that is none of them: it only maps basic latin capital
letters to the lowercase range 97-122. -/
lemma toLower_not_wild {c : Char} (h : c ≠ '%' ∧ c ≠ '_' ∧ c ≠ '\\') :
    Char.toLower c ≠ '%' ∧ Char.toLower c ≠ '_' ∧ Char.toLower c ≠ '\\' := by
  by_cases hc : c.toNat ≥ 65 ∧ c.toNat ≤ 90
  · have hlow : Char.toLower c = Char.ofNat (c.toNat + 32) := by
      show (if c.toNat ≥ 65 ∧ c.toNat ≤ 90 then Char.ofNat (c.toNat + 32) else c) =
        Char.ofNat (c.toNat + 32)
      exact if_pos hc
    have hv : (Char.ofNat (c.toNat + 32)).toNat = c.toNat + 32 :=
      char_toNat_ofNat_of_lt _ (by omega)
    have h37 : Char.toNat '%' = 37 := rfl
    have h95 : Char.toNat '_' = 95 := rfl
    have h92 : Char.toNat '\\' = 92 := rfl
    rw [hlow]
    refine ⟨?_, ?_, ?_⟩ <;> intro hEq <;>
      [(have h2 := h37 ▸ congrArg Char.toNat hEq);
       (have h2 := h95 ▸ congrArg Char.toNat hEq);
       (have h2 := h92 ▸ congrArg Char.toNat hEq)] <;>
      rw [hv] at h2 <;> omega
  · have hlow : Char.toLower c = c := by
      show (if c.toNat ≥ 65 ∧ c.toNat ≤ 90 then Char.ofNat (c.toNat + 32) else c) = c
      exact if_neg hc
    rw [hlow]
    exact h

/-- Characters surviving the wildcard filter still avoid the wildcards
after lowercasing. -/
lemma lower_data_no_wild {s : String}
    (h : ∀ c ∈ s.data, c ≠ '%' ∧ c ≠ '_' ∧ c ≠ '\\') :
    ∀ c ∈ s.data.map Char.toLower, c ≠ '%' ∧ c ≠ '_' ∧ c ≠ '\\' := by
  intro c hc
  obtain ⟨a, ha, rfl⟩ := List.mem_map.mp hc
  exact toLower_not_wild (h a ha)

/-- Lowered character list of the `'%{}%'.format(search)` pattern. -/
lemma pattern_data (s : String) :
    ("%" ++ s ++ "%").data.map Char.toLower =
      '%' :: (s.data.map Char.toLower ++ ['%']) := by
  have h1 : ("%" ++ s ++ "%").data = '%' :: (s.data ++ ['%']) := by
    rw [String.data_append, String.data_append]
    show ['%'] ++ s.data ++ ['%'] = '%' :: (s.data ++ ['%'])
    simp
  have h2 : Char.toLower '%' = '%' := by decide
  rw [h1]
  simp only [List.map_cons, List.map_append, List.map_nil, h2]

/-- Concrete question whose text has no underscore, used by the C5
counterexample. -/
def qAB : Question := ⟨6, "ab", "x", 1, 1⟩

/-- C5 counterexample: with the search term consisting of one
underscore, the question with text `ab` is returned by the search filter
(the unsanitized term reaches SQL ILIKE, where `_` is a one-character
wildcard) although the lowercased term is not a substring of the
lowercased question text. -/
theorem search_underscore_counterexample :
    qAB ∈ search_selection "_" [qAB] ∧
    ¬ ∃ l r, qAB.question.data.map Char.toLower =
      l ++ "_".data.map Char.toLower ++ r := by
  constructor
  · decide
  · rintro ⟨l, r, heq⟩
    have e1 : qAB.question.data.map Char.toLower = ['a', 'b'] := by decide
    have e2 : "_".data.map Char.toLower = ['_'] := by decide
    rw [e1, e2] at heq
    have hmem : ('_' : Char) ∈ (['a', 'b'] : List Char) := by
      rw [heq]
      simp
    exact absurd hmem (by decide)

/-- C5 amended: for a non-empty search term containing no SQL LIKE
wildcard and no escape character (`%`, `_`, backslash), a question is in
the search selection exactly when it is in the collection and the
lowercased term occurs as a substring of the lowercased question text;
no other field takes part in the match. -/
theorem search_substring_correct (term : String) (qs : List Question) (q : Question)
    (_hterm : term ≠ "")
    (hw : ∀ c ∈ term.data, c ≠ '%' ∧ c ≠ '_' ∧ c ≠ '\\') :
    q ∈ search_selection term qs ↔
      q ∈ qs ∧ ∃ l r, q.question.data.map Char.toLower =
        l ++ term.data.map Char.toLower ++ r := by
  have hpred : ∀ x : Question, (ilike ("%" ++ term ++ "%") x.question = true ↔
      ∃ l r, x.question.data.map Char.toLower =
        l ++ term.data.map Char.toLower ++ r) := by
    intro x
    unfold ilike
    rw [pattern_data, parseLike_pattern _ (lower_data_no_wild hw)]
    exact likeMatchTok_substring _ _
  unfold search_selection
  rw [List.mem_filter]
  exact and_congr_right (fun _ => hpred q)

/-- Witness for C5 amended at the scenario of the spec: the term
`capital` finds the question asking for the capital of France. -/
theorem search_substring_correct_witness :
    qF ∈ [qF] ∧ ∃ l r, qF.question.data.map Char.toLower =
      l ++ "capital".data.map Char.toLower ++ r :=
  (search_substring_correct "capital" [qF] qF (by decide) (by decide)).mp (by decide)

/-- C9: the search selection is a sublist of its input collection - it
keeps the questions in the relative order in which the (id-ordered)
collection presents them, for every term. -/
theorem search_preserves_order (term : String) (qs : List Question) :
    List.Sublist (search_selection term qs) qs :=
  List.filter_sublist qs

end Trivia
